import Mathlib

set_option maxHeartbeats 1000000

/-!
Shallow embedding of the atomic value container family of
`src/rust/src/atomic_value.rs` and of the object pool of `src/rust/src/pool.rs`.

An `AtomicValue<T>` wraps a single `AtomicPtr<T>`. We model the pointer slot
as `Option T` (`none` = null pointer, `some v` = pointer to a heap box holding
`v`) and instrument the container with the number of heap allocations
(`Box::into_raw(Box::new(_))`) and frees (`Box::from_raw(_)`) it has
performed, so that the allocation discipline of the code is visible in the
model. Sequences of operations from one thread are modelled by sequential
function application, matching the single-threaded claims; the memory
ordering parameters of the original operations only constrain inter-thread
visibility and have no effect on the sequential semantics, so they are not
carried in the model.
-/

/-- State of an `AtomicValue<T>` (one `AtomicPtr<T>` slot) together with the
counts of box allocations and box frees the container has performed. -/
structure AtomicValue (T : Type) where
  slot : Option T
  allocs : Nat
  frees : Nat
deriving DecidableEq, Repr

namespace AtomicValue

/-- `AtomicValue::new(val)`: `AtomicPtr::new(Box::into_raw(Box::new(val)))` —
one allocation and a filled slot. -/
def new {T : Type} (val : T) : AtomicValue T := ⟨some val, 1, 0⟩

/-- `AtomicValue::empty()`: a null pointer internally, no allocation. -/
def empty (T : Type) : AtomicValue T := ⟨none, 0, 0⟩

/-- `AtomicValue::load(order)`: atomically read the pointer; a null pointer
gives `None`, otherwise the pointee is cloned. The slot is left untouched and
nothing is freed. -/
def load {T : Type} (s : AtomicValue T) : Option T × AtomicValue T := (s.slot, s)

/-- `AtomicValue::store(val, order)`: box `val`, swap the box in, and
`Box::from_raw` the displaced pointer when it is non-null. -/
def store {T : Type} (s : AtomicValue T) (val : T) : AtomicValue T :=
  ⟨some val, s.allocs + 1, s.frees + (if s.slot.isSome then 1 else 0)⟩

/-- `AtomicValue::swap(val, order)`: box `val`, swap the box in, and move the
displaced value out of its box (`*Box::from_raw`, which frees the box), or
return `None` when the displaced pointer was null. -/
def swap {T : Type} (s : AtomicValue T) (val : T) : Option T × AtomicValue T :=
  (s.slot, ⟨some val, s.allocs + 1, s.frees + (if s.slot.isSome then 1 else 0)⟩)

/-- `AtomicValue::take(order)`: swap a null pointer in and move the old value
out of its box when the old pointer was non-null. -/
def take {T : Type} (s : AtomicValue T) : Option T × AtomicValue T :=
  (s.slot, ⟨none, s.allocs, s.frees + (if s.slot.isSome then 1 else 0)⟩)

/-- `AtomicValue::store_if_empty(val, success, failure)`: box `val`, then
`compare_exchange` the slot from null to the box; on failure (slot non-null)
the box is unboxed (allocation freed) and `val` is handed back in `Err`. -/
def store_if_empty {T : Type} (s : AtomicValue T) (val : T) :
    Except T Unit × AtomicValue T :=
  match s.slot with
  | none => (Except.ok (), ⟨some val, s.allocs + 1, s.frees⟩)
  | some w => (Except.error val, ⟨some w, s.allocs + 1, s.frees + 1⟩)

/-- `AtomicValue::store_if_empty_weak`: same, but `compare_exchange_weak` may
fail spuriously even when the slot is null; the `spurious` flag models that
nondeterminism. The failure path is identical to the strong variant. -/
def store_if_empty_weak {T : Type} (s : AtomicValue T) (val : T)
    (spurious : Bool) : Except T Unit × AtomicValue T :=
  match s.slot, spurious with
  | none, false => (Except.ok (), ⟨some val, s.allocs + 1, s.frees⟩)
  | _, _ => (Except.error val, ⟨s.slot, s.allocs + 1, s.frees + 1⟩)

/-- `AtomicValue::is_empty(order)`: the slot pointer is null. -/
def is_empty {T : Type} (s : AtomicValue T) : Bool := s.slot.isNone

/-- `impl Drop for AtomicValue`: free the current pointer if non-null. -/
def drop {T : Type} (s : AtomicValue T) : AtomicValue T :=
  ⟨none, s.allocs, s.frees + (if s.slot.isSome then 1 else 0)⟩

/-- `AtomicValue::load_unchecked`: dereference the pointer with no null check;
the result `none` marks the null-pointer-dereference branch (undefined
behavior in the original). -/
def load_unchecked {T : Type} (s : AtomicValue T) : Option (T × AtomicValue T) :=
  s.slot.map (fun v => (v, s))

/-- `AtomicValue::store_unchecked`: box `val`, swap, and `Box::from_raw` the
displaced pointer with no null check; `none` marks freeing a null pointer
(undefined behavior in the original). -/
def store_unchecked {T : Type} (s : AtomicValue T) (val : T) :
    Option (AtomicValue T) :=
  s.slot.map (fun _ => ⟨some val, s.allocs + 1, s.frees + 1⟩)

/-- `AtomicValue::swap_unchecked`: box `val`, swap, and move the displaced
value out of its box with no null check; `none` marks the null branch
(undefined behavior in the original). -/
def swap_unchecked {T : Type} (s : AtomicValue T) (val : T) :
    Option (T × AtomicValue T) :=
  s.slot.map (fun w => (w, ⟨some val, s.allocs + 1, s.frees + 1⟩))

/-- `impl Default for AtomicValue`: `Self::empty()`. -/
def default (T : Type) : AtomicValue T := empty T

end AtomicValue

/-- One single-threaded operation on an `AtomicValue`, for the
allocation-balance property. -/
inductive AVOp (T : Type) where
  | store (val : T)
  | swap (val : T)
  | take

/-- Run a single-threaded sequence of store/swap/take calls. -/
def runOps {T : Type} (s : AtomicValue T) : List (AVOp T) → AtomicValue T
  | [] => s
  | AVOp.store v :: ops => runOps (s.store v) ops
  | AVOp.swap v :: ops => runOps (s.swap v).2 ops
  | AVOp.take :: ops => runOps s.take.2 ops

/-- Model of `std::sync::Arc<T>`: a handle to a reference-counted payload.
`rc` is the strong count of the payload. The claims below only inspect `rc`
on handles that were never published (so no concurrent count changes are
needed in the model). -/
structure Arc (T : Type) where
  rc : Nat
  val : T
deriving DecidableEq, Repr

/-- `Arc::new(val)`: a fresh payload with strong count 1. -/
def Arc.new {T : Type} (val : T) : Arc T := ⟨1, val⟩

/-- `Arc::into_inner(a)`: returns the payload iff this handle is the only
strong reference; otherwise `none`. -/
def Arc.into_inner {T : Type} (a : Arc T) : Option T :=
  if a.rc = 1 then some a.val else none

namespace AtomicArcValue

/-- `AtomicArcValue::new(val)`: `Self::from_arc(Arc::new(val))`. -/
def new {T : Type} (val : T) : AtomicValue (Arc T) := AtomicValue.new (Arc.new val)

/-- `AtomicArcValue::empty()`. -/
def empty (T : Type) : AtomicValue (Arc T) := AtomicValue.empty (Arc T)

/-- `AtomicArcValue::load(order)`: a null pointer gives `None`, otherwise an
`Arc::clone` of the stored handle; the slot is untouched. -/
def load {T : Type} (s : AtomicValue (Arc T)) :
    Option (Arc T) × AtomicValue (Arc T) := (s.slot, s)

/-- `AtomicArcValue::store_if_empty`: delegates to
`AtomicValue::store_if_empty` with `Arc::new(val)` and on failure maps the
error through `Arc::into_inner(v).unwrap()`. An overall `none` marks an
`unwrap` failure on the error path. -/
def store_if_empty {T : Type} (s : AtomicValue (Arc T)) (val : T) :
    Option (Except T Unit × AtomicValue (Arc T)) :=
  match AtomicValue.store_if_empty s (Arc.new val) with
  | (Except.ok _, s2) => some (Except.ok (), s2)
  | (Except.error a, s2) => (Arc.into_inner a).map (fun v => (Except.error v, s2))

/-- `AtomicArcValue::store_if_empty_weak`: weak variant of the above. -/
def store_if_empty_weak {T : Type} (s : AtomicValue (Arc T)) (val : T)
    (spurious : Bool) : Option (Except T Unit × AtomicValue (Arc T)) :=
  match AtomicValue.store_if_empty_weak s (Arc.new val) spurious with
  | (Except.ok _, s2) => some (Except.ok (), s2)
  | (Except.error a, s2) => (Arc.into_inner a).map (fun v => (Except.error v, s2))

/-- `impl Default for AtomicArcValue`: `Self::empty()`. -/
def default (T : Type) : AtomicValue (Arc T) := empty T

end AtomicArcValue

namespace NEAtomicValue

/-- `NEAtomicValue::new(val)`: delegates to `AtomicValue::new`. -/
def new {T : Type} (val : T) : AtomicValue T := AtomicValue.new val

/-- `NEAtomicValue::load`: delegates to `AtomicValue::load_unchecked`. -/
def load {T : Type} (s : AtomicValue T) : Option (T × AtomicValue T) :=
  s.load_unchecked

/-- `NEAtomicValue::store`: delegates to `AtomicValue::store_unchecked`. -/
def store {T : Type} (s : AtomicValue T) (val : T) : Option (AtomicValue T) :=
  s.store_unchecked val

/-- `NEAtomicValue::swap`: delegates to `AtomicValue::swap_unchecked`. -/
def swap {T : Type} (s : AtomicValue T) (val : T) : Option (T × AtomicValue T) :=
  s.swap_unchecked val

/-- `impl Default for NEAtomicValue`: `Self::new(T::default())`. -/
def default (T : Type) [Inhabited T] : AtomicValue T := new (Inhabited.default : T)

end NEAtomicValue

namespace NEAtomicArcValue

/-- `NEAtomicArcValue::new(val)`: delegates to `AtomicArcValue::new`. -/
def new {T : Type} (val : T) : AtomicValue (Arc T) := AtomicArcValue.new val

/-- `NEAtomicArcValue::load`: delegates to `load_unchecked` (an `Arc::clone`
of the stored handle). -/
def load {T : Type} (s : AtomicValue (Arc T)) :
    Option (Arc T × AtomicValue (Arc T)) := s.load_unchecked

/-- `impl Default for NEAtomicArcValue`: `Self::new(T::default())`. -/
def default (T : Type) [Inhabited T] : AtomicValue (Arc T) :=
  new (Inhabited.default : T)

end NEAtomicArcValue

/-- One public operation of `NEAtomicValue`. -/
inductive NEOp (T : Type) where
  | load
  | store (val : T)
  | swap (val : T)

/-- Run a single-threaded sequence of `NEAtomicValue` public operations;
`none` marks reaching a null branch inside a delegated unchecked operation. -/
def NErun {T : Type} (s : AtomicValue T) : List (NEOp T) → Option (AtomicValue T)
  | [] => some s
  | NEOp.load :: ops => (NEAtomicValue.load s).bind (fun p => NErun p.2 ops)
  | NEOp.store v :: ops => (NEAtomicValue.store s v).bind (fun s2 => NErun s2 ops)
  | NEOp.swap v :: ops => (NEAtomicValue.swap s v).bind (fun p => NErun p.2 ops)

/-- Modelled from the spec: the bodies of `SyncPool::get`, `SyncPool::put`
and the tail of `SyncPool::pop_front` are absent from `src/rust/src/pool.rs`
(empty stubs and a TODO). Per the spec the pool is a LIFO free list: `put`
pushes the value at the head (`push_front`). -/
def SyncPool.put {T : Type} (pool : List T) (val : T) : List T := val :: pool

/-- Modelled from the spec: `get` pops the head of the free list
(`pop_front`), returning it with the remaining pool; on an empty pool the
supplied factory, if any, is consulted and may itself return `none`. -/
def SyncPool.get {T : Type} (new_fn : Option (Unit → Option T)) (pool : List T) :
    Option T × List T :=
  match pool with
  | v :: rest => (some v, rest)
  | [] =>
    match new_fn with
    | some f => (f (), [])
    | none => (none, [])

/-- Allocation-balance invariant for a live container: allocations made so
far equal frees plus one live boxed value exactly when the slot is full. -/
def balanced {T : Type} (s : AtomicValue T) : Prop :=
  s.allocs = s.frees + (if s.slot.isSome then 1 else 0)

theorem balanced_runOps {T : Type} (ops : List (AVOp T)) (s : AtomicValue T)
    (h : balanced s) : balanced (runOps s ops) := by
  induction ops generalizing s with
  | nil => simpa [runOps] using h
  | cons op ops ih =>
    cases op with
    | store v =>
      simp only [runOps]
      apply ih
      cases hs : s.slot <;>
        simp [balanced, AtomicValue.store, hs] at h ⊢ <;> omega
    | swap v =>
      simp only [runOps]
      apply ih
      cases hs : s.slot <;>
        simp [balanced, AtomicValue.swap, hs] at h ⊢ <;> omega
    | take =>
      simp only [runOps]
      apply ih
      cases hs : s.slot <;>
        simp [balanced, AtomicValue.take, hs] at h ⊢ <;> omega

theorem balanced_drop {T : Type} (s : AtomicValue T) (h : balanced s) :
    s.drop.allocs = s.drop.frees := by
  cases hs : s.slot <;> simp [balanced, AtomicValue.drop, hs] at h ⊢ <;> omega

theorem NErun_isSome {T : Type} (ops : List (NEOp T)) (s : AtomicValue T)
    (h : s.slot.isSome = true) : (NErun s ops).isSome = true := by
  induction ops generalizing s with
  | nil => simp [NErun]
  | cons op ops ih =>
    obtain ⟨w, hw⟩ := Option.isSome_iff_exists.mp h
    cases op with
    | load =>
      simp only [NErun, NEAtomicValue.load, AtomicValue.load_unchecked, hw,
        Option.map_some, Option.bind_some]
      exact ih s (by simp [hw])
    | store v =>
      simp only [NErun, NEAtomicValue.store, AtomicValue.store_unchecked, hw,
        Option.map_some, Option.bind_some]
      exact ih _ (by simp)
    | swap v =>
      simp only [NErun, NEAtomicValue.swap, AtomicValue.swap_unchecked, hw,
        Option.map_some, Option.bind_some]
      exact ih _ (by simp)

/-- C1: on an `AtomicValue` whose slot is non-null, `store_if_empty(v2)`
returns a failure result carrying `v2` back unchanged and leaves the contents
unchanged (a subsequent `load` still yields the previously stored value); on
an empty container it succeeds. -/
theorem store_if_empty_full_fails {T : Type} (s : AtomicValue T) (v2 : T)
    (h : s.slot.isSome = true) :
    (s.store_if_empty v2).1 = Except.error v2 ∧
    (s.store_if_empty v2).2.slot = s.slot ∧
    (AtomicValue.load (s.store_if_empty v2).2).1 = s.slot ∧
    (∀ v1 : T, ((AtomicValue.empty T).store_if_empty v1).1 = Except.ok ()) := by
  obtain ⟨w, hw⟩ := Option.isSome_iff_exists.mp h
  simp [AtomicValue.store_if_empty, AtomicValue.load, AtomicValue.empty, hw]

/-- Witness for C1 at the state `new 123` and value `456`, matching the test
in the source. -/
theorem store_if_empty_full_fails_witness :
    ((AtomicValue.new (123 : Nat)).slot.isSome = true) ∧
    (((AtomicValue.new (123 : Nat)).store_if_empty 456).1 = Except.error 456 ∧
      ((AtomicValue.new (123 : Nat)).store_if_empty 456).2.slot =
        (AtomicValue.new (123 : Nat)).slot ∧
      (AtomicValue.load ((AtomicValue.new (123 : Nat)).store_if_empty 456).2).1 =
        (AtomicValue.new (123 : Nat)).slot ∧
      (∀ v1 : Nat, ((AtomicValue.empty Nat).store_if_empty v1).1 = Except.ok ())) :=
  ⟨rfl, store_if_empty_full_fails (AtomicValue.new 123) 456 rfl⟩

/-- C2: for every single-threaded sequence of store, swap and take calls
followed by destruction (drop), on a container started with `new` or with
`empty`, the number of heap allocations the container made equals the number
of frees it performed. -/
theorem alloc_free_balance {T : Type} (v : T) (ops : List (AVOp T)) :
    (runOps (AtomicValue.new v) ops).drop.allocs =
      (runOps (AtomicValue.new v) ops).drop.frees ∧
    (runOps (AtomicValue.empty T) ops).drop.allocs =
      (runOps (AtomicValue.empty T) ops).drop.frees := by
  constructor
  · exact balanced_drop _ (balanced_runOps ops _ (by simp [balanced, AtomicValue.new]))
  · exact balanced_drop _ (balanced_runOps ops _ (by simp [balanced, AtomicValue.empty]))

/-- C3: starting from `NEAtomicValue::new(v)`, every single-threaded sequence
of `load`, `store` and `swap` calls runs to completion without ever reaching
the null-pointer branch of the delegated unchecked operations: each public
operation is total under the construction precondition. -/
theorem NE_operations_total {T : Type} (v : T) (ops : List (NEOp T)) :
    (NErun (NEAtomicValue.new v) ops).isSome = true :=
  NErun_isSome ops _ (by simp [NEAtomicValue.new, AtomicValue.new])

/-- C4: `swap(v)` returns the previous contents (the stored value on a filled
container, `None` on an empty one) and leaves `v` installed, so a subsequent
`load` yields `v`. -/
theorem swap_symmetry {T : Type} (s : AtomicValue T) (v : T) :
    (s.swap v).1 = s.slot ∧ (s.swap v).2.slot = some v ∧
    (AtomicValue.load (s.swap v).2).1 = some v := by
  simp [AtomicValue.swap, AtomicValue.load]

/-- C5: when `AtomicArcValue::store_if_empty(v)` fails because the slot holds
a live Arc `a`, the attempt handle (strong count 1, never published) is
reclaimed through `Arc::into_inner` and the payload `v` is handed back by
value, while the slot still holds `a` unchanged (same handle, same strong
count) — no live payload is deallocated. -/
theorem arc_store_if_empty_fail {T : Type} (s : AtomicValue (Arc T)) (v : T)
    (a : Arc T) (h : s.slot = some a) :
    AtomicArcValue.store_if_empty s v =
      some (Except.error v, ⟨some a, s.allocs + 1, s.frees + 1⟩) := by
  simp [AtomicArcValue.store_if_empty, AtomicValue.store_if_empty, Arc.new,
    Arc.into_inner, h]

/-- Witness for C5 at the state `AtomicArcValue::new 5` and value `7`. -/
theorem arc_store_if_empty_fail_witness :
    ((AtomicArcValue.new (5 : Nat)).slot = some (Arc.new 5)) ∧
    (AtomicArcValue.store_if_empty (AtomicArcValue.new (5 : Nat)) 7 =
      some (Except.error 7,
        ⟨some (Arc.new 5), (AtomicArcValue.new (5 : Nat)).allocs + 1,
          (AtomicArcValue.new (5 : Nat)).frees + 1⟩)) :=
  ⟨rfl, arc_store_if_empty_fail (AtomicArcValue.new 5) 7 (Arc.new 5) rfl⟩

/-- C6: pushing A, B, C in order into an empty pool via `put` and popping
three times via `get` returns some value each time, drains the pool, and the
returned values are exactly A, B, C as a multiset (no duplicate, no loss). -/
theorem pool_recycling {T : Type} (A B C : T) :
    (SyncPool.get none (SyncPool.put (SyncPool.put (SyncPool.put [] A) B) C)).1 =
      some C ∧
    (SyncPool.get none
      (SyncPool.get none
        (SyncPool.put (SyncPool.put (SyncPool.put [] A) B) C)).2).1 = some B ∧
    (SyncPool.get none
      (SyncPool.get none
        (SyncPool.get none
          (SyncPool.put (SyncPool.put (SyncPool.put [] A) B) C)).2).2).1 =
      some A ∧
    (SyncPool.get none
      (SyncPool.get none
        (SyncPool.get none
          (SyncPool.put (SyncPool.put (SyncPool.put [] A) B) C)).2).2).2 =
      ([] : List T) ∧
    (↑[C, B, A] : Multiset T) = (↑[A, B, C] : Multiset T) := by
  refine ⟨rfl, rfl, rfl, rfl, ?_⟩
  exact Multiset.coe_eq_coe.mpr (by simpa using List.reverse_perm [A, B, C])

/-- C7: a container created by `empty()` loads `None`, reports `is_empty`,
and `store_if_empty(v)` on it succeeds with a subsequent `load` yielding `v`. -/
theorem empty_round_trip {T : Type} (v : T) :
    (AtomicValue.load (AtomicValue.empty T)).1 = none ∧
    (AtomicValue.empty T).is_empty = true ∧
    ((AtomicValue.empty T).store_if_empty v).1 = Except.ok () ∧
    (AtomicValue.load ((AtomicValue.empty T).store_if_empty v).2).1 = some v := by
  simp [AtomicValue.load, AtomicValue.empty, AtomicValue.is_empty,
    AtomicValue.store_if_empty]

/-- C8: `load` returns `None` exactly when the slot is null and otherwise the
stored value (a clone), and leaves the whole state — slot, allocation count
and free count — unchanged: it frees nothing. -/
theorem load_frame {T : Type} (s : AtomicValue T) :
    (s.load).1 = s.slot ∧ (s.load).2 = s ∧ (s.load).2.frees = s.frees := by
  simp [AtomicValue.load]

/-- C9: `AtomicArcValue::store_if_empty` and `store_if_empty_weak` never hit
the `unwrap` failure on their error path: the attempt Arc has strong count 1
(it was never published), so `Arc::into_inner` always yields the payload and
the model never returns `none`. -/
theorem arc_store_if_empty_total {T : Type} (s : AtomicValue (Arc T)) (v : T) :
    (AtomicArcValue.store_if_empty s v).isSome = true ∧
    ∀ spurious : Bool,
      (AtomicArcValue.store_if_empty_weak s v spurious).isSome = true := by
  constructor
  · cases hs : s.slot <;>
      simp [AtomicArcValue.store_if_empty, AtomicValue.store_if_empty,
        Arc.new, Arc.into_inner, hs]
  · intro sp
    cases hs : s.slot <;> cases sp <;>
      simp [AtomicArcValue.store_if_empty_weak, AtomicValue.store_if_empty_weak,
        Arc.new, Arc.into_inner, hs]

/-- C10: the `Default` implementations disagree: the checked containers
default to an empty slot whose load is `None`, while the non-empty variants
default to holding `T::default()`, whose load yields that default value. -/
theorem default_disagree (T : Type) [Inhabited T] :
    (AtomicValue.load (AtomicValue.default T)).1 = none ∧
    (AtomicArcValue.load (AtomicArcValue.default T)).1 = none ∧
    (NEAtomicValue.load (NEAtomicValue.default T)).map Prod.fst =
      some (Inhabited.default : T) ∧
    (NEAtomicArcValue.load (NEAtomicArcValue.default T)).map Prod.fst =
      some (Arc.new (Inhabited.default : T)) := by
  refine ⟨rfl, rfl, ?_, ?_⟩ <;>
    simp [NEAtomicValue.load, NEAtomicValue.default, NEAtomicValue.new,
      NEAtomicArcValue.load, NEAtomicArcValue.default, NEAtomicArcValue.new,
      AtomicArcValue.new, AtomicValue.new, AtomicValue.load_unchecked,
      AtomicValue.default, AtomicArcValue.default, AtomicValue.empty,
      AtomicArcValue.empty, AtomicValue.load, AtomicArcValue.load]
